import Mathlib

/-!
Shallow embedding of the camera transition engine implemented in
src/src/rviz_animated_view_controller.cpp (class AnimatedViewController).

Machine doubles are modelled as real numbers; ROS durations and wall-clock
times are reals measured in seconds; the boost circular buffer holding the
camera movements is modelled as a list together with an explicit capacity
counter (the buffer never overwrites elements because beginNewTransition
grows the capacity before pushing into a full buffer).  Publishing a
message on the finished-animation topic is modelled by incrementing a
counter in the state.
-/

noncomputable section

namespace AnimatedViewController

/-- Vector of three reals, standing for an Ogre Vector3. -/
@[ext]
structure Vec3 where
  x : ℝ
  y : ℝ
  z : ℝ

/-- One entry of the camera movement buffer.  It mirrors the
OgreCameraMovement record exactly as the source uses it: target eye, focus
and up vectors, the transition duration in seconds, and the interpolation
speed tag. -/
structure Movement where
  eye : Vec3
  focus : Vec3
  up : Vec3
  transition_duration : ℝ
  interpolation_speed : ℕ

/-- Interpolation speed tag RISING of view_controller_msgs CameraMovement. -/
def RISING : ℕ := 0

/-- Interpolation speed tag DECLINING. -/
def DECLINING : ℕ := 1

/-- Interpolation speed tag FULL. -/
def FULL : ℕ := 2

/-- Interpolation speed tag WAVE (also the default of the switch). -/
def WAVE : ℕ := 3

/-- Engine state: the movement buffer with its capacity, the animating
flag, the current pose properties (eye, focus, up), and the transition
clock fields of the source class.  finished_signals counts the messages
published on the finished-animation topic. -/
@[ext]
structure State where
  queue : List Movement
  capacity : ℕ
  animate : Bool
  eye : Vec3
  focus : Vec3
  up : Vec3
  transition_start_time : ℝ
  render_frame_by_frame : Bool
  target_fps : ℤ
  rendered_frames_counter : ℕ
  pause_animation_duration : ℝ
  finished_signals : ℕ

/-- Componentwise linear interpolation, as written in update:
start plus progress times (goal minus start). -/
def lerp (a b : Vec3) (p : ℝ) : Vec3 :=
  ⟨a.x + p * (b.x - a.x), a.y + p * (b.y - a.y), a.z + p * (b.z - a.z)⟩

/-- computeRelativeProgressInSpace of the source: a switch on the
interpolation speed tag; the WAVE case and the default case share one arm
exactly as in the source. -/
def computeRelativeProgressInSpace (t : ℝ) (speed : ℕ) : ℝ :=
  match speed with
  | 0 => 1 - Real.cos (t * (Real.pi / 2))
  | 1 => -Real.cos (t * (Real.pi / 2) + Real.pi / 2)
  | 2 => t
  | _ => 0.5 * (1 - Real.cos (t * Real.pi))

/-- computeRelativeProgressInTime of the source.  In frame-by-frame mode
the fraction is the rendered frame counter divided by (target fps times
the duration), and the counter is incremented afterwards; otherwise it is
the wall-clock time elapsed since the transition start divided by the
duration.  The possibly updated state is returned alongside the
fraction. -/
def computeRelativeProgressInTime (s : State) (now : ℝ)
    (transition_duration : ℝ) : ℝ × State :=
  if s.render_frame_by_frame then
    ((s.rendered_frames_counter : ℝ) / ((s.target_fps : ℝ) * transition_duration),
     { s with rendered_frames_counter := s.rendered_frames_counter + 1 })
  else
    ((now - s.transition_start_time) / transition_duration, s)

/-- pauseAnimationOnRequest of the source: if the pending pause duration
is positive, shift the transition start time forward by it and clear it.
The blocking sleep performed by the source is a real-time effect with no
bearing on the state and is not modelled. -/
def pauseAnimationOnRequest (s : State) : State :=
  if 0 < s.pause_animation_duration then
    { s with
      transition_start_time := s.transition_start_time + s.pause_animation_duration,
      pause_animation_duration := 0 }
  else s

/-- pauseAnimationCallback of the source: store the requested pause
duration in the pending-pause field. -/
def pauseAnimationCallback (s : State) (d : ℝ) : State :=
  { s with pause_animation_duration := d }

/-- prepareNextMovement of the source: advance the transition start time
by the duration of the segment that just finished and reset the rendered
frame counter. -/
def prepareNextMovement (s : State) (previous_transition_duration : ℝ) : State :=
  { s with
    transition_start_time := s.transition_start_time + previous_transition_duration,
    rendered_frames_counter := 0 }

/-- cancelTransition of the source: stop animating, clear the buffer and
the rendered frame counter; if frame-by-frame rendering was active,
publish one finished-animation message and clear the flag. -/
def cancelTransition (s : State) : State :=
  let s1 : State := { s with animate := false, queue := [], rendered_frames_counter := 0 }
  if s1.render_frame_by_frame then
    { s1 with
      finished_signals := s1.finished_signals + 1,
      render_frame_by_frame := false }
  else s1

/-- beginNewTransition of the source: reject a negative duration,
substitute 0.001 s for a zero duration, push a synthetic movement holding
the current pose (with duration 0.001 s) when the buffer is empty (also
recording the current wall-clock time as transition start), grow the
capacity by 20 when the buffer is full, push the requested movement, and
set the animating flag. -/
def beginNewTransition (s : State) (eye focus up : Vec3)
    (transition_duration : ℝ) (interpolation_speed : ℕ) (now : ℝ) : State :=
  if transition_duration < 0 then s
  else
    let d : ℝ := if transition_duration = 0 then 0.001 else transition_duration
    let s1 : State :=
      if s.queue.isEmpty then
        { s with
          transition_start_time := now,
          queue := [⟨s.eye, s.focus, s.up, 0.001, interpolation_speed⟩] }
      else s
    let s2 : State :=
      if s1.queue.length = s1.capacity then
        { s1 with capacity := s1.capacity + 20 }
      else s1
    { s2 with
      queue := s2.queue ++ [⟨eye, focus, up, d, interpolation_speed⟩],
      animate := true }

/-- Body of update for the animating case, with start and goal the buffer
elements at positions 0 and 1.  It follows the source line by line: apply
a pending pause, compute the time fraction, clamp it at one (recording
completion), map it through computeRelativeProgressInSpace, interpolate
the pose, and on completion pop the front element and either prepare the
next movement (two or more elements left) or cancel the transition. -/
def updateAnimating (s : State) (now : ℝ) (start goal : Movement) : State :=
  let s1 := pauseAnimationOnRequest s
  let tp := (computeRelativeProgressInTime s1 now goal.transition_duration).1
  let s2 := (computeRelativeProgressInTime s1 now goal.transition_duration).2
  let t : ℝ := if 1 ≤ tp then 1 else tp
  let p := computeRelativeProgressInSpace t goal.interpolation_speed
  let s3 : State :=
    { s2 with
      eye := lerp start.eye goal.eye p,
      focus := lerp start.focus goal.focus p,
      up := lerp start.up goal.up p }
  if 1 ≤ tp then
    let s4 : State := { s3 with queue := s3.queue.tail }
    if 2 ≤ s4.queue.length then
      prepareNextMovement s4 goal.transition_duration
    else
      cancelTransition s4
  else s3

/-- update of the source (one tick).  The guard of the source is
animate_ and isMovementAvailable().  Modelled from the spec:
isMovementAvailable() is declared only in the class header, which is not
part of src/; the spec states that a tick is a no-op if idle or if fewer
than two queue elements exist, so the guard is modelled as the animate
flag being set and the buffer holding at least two elements (matched as
start, goal and a rest). -/
def update (s : State) (now : ℝ) : State :=
  if s.animate then
    match s.queue with
    | start :: goal :: _ => updateAnimating s now start goal
    | _ => s
  else s

/-- One request of a camera trajectory message, as consumed by
cameraTrajectoryCallback. -/
structure Req where
  eye : Vec3
  focus : Vec3
  up : Vec3
  transition_duration : ℝ
  interpolation_speed : ℕ

/-- Enqueue a list of requests in order, as the loop of
cameraTrajectoryCallback does for the valid entries of a trajectory. -/
def enqueueAll (s : State) (reqs : List Req) (now : ℝ) : State :=
  reqs.foldl
    (fun t r =>
      beginNewTransition t r.eye r.focus r.up r.transition_duration
        r.interpolation_speed now)
    s

/-- Public operations of the engine. -/
inductive Op where
  | enqueue (eye focus up : Vec3) (d : ℝ) (speed : ℕ) (now : ℝ)
  | tick (now : ℝ)
  | cancel
  | pause (d : ℝ)

/-- Effect of one public operation on the engine state. -/
def step (s : State) : Op → State
  | Op.enqueue e f u d sp now => beginNewTransition s e f u d sp now
  | Op.tick now => update s now
  | Op.cancel => cancelTransition s
  | Op.pause d => pauseAnimationCallback s d

/-- Invariant: an animating engine has at least two buffered elements and
an idle engine has an empty buffer. -/
def AnimInv (s : State) : Prop :=
  (s.animate = true → 2 ≤ s.queue.length) ∧ (s.animate = false → s.queue = [])

/-- Invariant: every buffered movement has a positive duration. -/
def DurPos (s : State) : Prop :=
  ∀ m ∈ s.queue, 0 < m.transition_duration

/-- Progress in space used by a tick for the segment toward goal: the
time fraction (after pause application), clamped at one, passed through
computeRelativeProgressInSpace with the goal interpolation speed. -/
def progressOf (s : State) (now : ℝ) (goal : Movement) : ℝ :=
  computeRelativeProgressInSpace
    (if 1 ≤ (computeRelativeProgressInTime (pauseAnimationOnRequest s) now
              goal.transition_duration).1
     then 1
     else (computeRelativeProgressInTime (pauseAnimationOnRequest s) now
            goal.transition_duration).1)
    goal.interpolation_speed

/-- Example movement used as a synthetic front element in concrete runs. -/
def m0 : Movement := ⟨⟨0, 0, 0⟩, ⟨0, 0, -1⟩, ⟨0, 1, 0⟩, 0.001, FULL⟩

/-- Example goal movement: eye (0,0,10), duration one second, FULL. -/
def m1 : Movement := ⟨⟨0, 0, 10⟩, ⟨0, 0, 0⟩, ⟨0, 1, 0⟩, 1, FULL⟩

/-- Example near-instant goal movement with the substituted duration. -/
def mz : Movement := ⟨⟨5, 5, 5⟩, ⟨0, 0, 0⟩, ⟨0, 0, 1⟩, 0.001, FULL⟩

/-- Example idle state: empty buffer, default capacity 100, not animating. -/
def idleState : State :=
  ⟨[], 100, false, ⟨0, 0, 0⟩, ⟨0, 0, -1⟩, ⟨0, 1, 0⟩, 0, false, 60, 0, 0, 0⟩

/-- Example animating state holding m0 and m1, wall-clock mode. -/
def animState : State :=
  ⟨[m0, m1], 100, true, ⟨0, 0, 0⟩, ⟨0, 0, -1⟩, ⟨0, 1, 0⟩, 0, false, 60, 0, 0, 0⟩

/-- Example state whose buffer is exactly at capacity. -/
def fullState : State :=
  ⟨[m1], 1, true, ⟨0, 0, 0⟩, ⟨0, 0, -1⟩, ⟨0, 1, 0⟩, 0, false, 60, 0, 0, 0⟩

/-- Example animating state whose pending segment is near-instant,
wall-clock mode. -/
def zState : State :=
  ⟨[m0, mz], 100, true, ⟨0, 0, 0⟩, ⟨0, 0, -1⟩, ⟨0, 1, 0⟩, 0, false, 60, 0, 0, 0⟩

/-- Example animating state whose pending segment is near-instant,
frame-by-frame mode at 60 fps. -/
def fState : State :=
  ⟨[m0, mz], 100, true, ⟨0, 0, 0⟩, ⟨0, 0, -1⟩, ⟨0, 1, 0⟩, 0, true, 60, 0, 0, 0⟩

/-- Degenerate start element: eye equals focus. -/
def degStart : Movement := ⟨⟨0, 0, 0⟩, ⟨0, 0, 0⟩, ⟨0, 0, 1⟩, 0.001, FULL⟩

/-- Degenerate goal element: eye equals focus. -/
def degGoal : Movement := ⟨⟨1, 1, 1⟩, ⟨1, 1, 1⟩, ⟨0, 0, 1⟩, 1, FULL⟩

/-- Animating state whose interpolation endpoints are degenerate. -/
def degState : State :=
  ⟨[degStart, degGoal], 100, true, ⟨0, 0, 0⟩, ⟨0, 0, 0⟩, ⟨0, 0, 1⟩, 0, false, 60, 0, 0, 0⟩

/-- Animating state with a positive pause of two seconds pending. -/
def pendState : State :=
  ⟨[m0, m1], 100, true, ⟨0, 0, 0⟩, ⟨0, 0, -1⟩, ⟨0, 1, 0⟩, 0, false, 60, 0, 2, 0⟩

/- Projection lemmas for the state-passing helpers. -/

@[simp]
theorem pauseOnRequest_queue (s : State) :
    (pauseAnimationOnRequest s).queue = s.queue := by
  unfold pauseAnimationOnRequest; split <;> rfl

@[simp]
theorem pauseOnRequest_animate (s : State) :
    (pauseAnimationOnRequest s).animate = s.animate := by
  unfold pauseAnimationOnRequest; split <;> rfl

@[simp]
theorem pauseOnRequest_eye (s : State) :
    (pauseAnimationOnRequest s).eye = s.eye := by
  unfold pauseAnimationOnRequest; split <;> rfl

@[simp]
theorem pauseOnRequest_focus (s : State) :
    (pauseAnimationOnRequest s).focus = s.focus := by
  unfold pauseAnimationOnRequest; split <;> rfl

@[simp]
theorem pauseOnRequest_up (s : State) :
    (pauseAnimationOnRequest s).up = s.up := by
  unfold pauseAnimationOnRequest; split <;> rfl

@[simp]
theorem pauseOnRequest_flag (s : State) :
    (pauseAnimationOnRequest s).render_frame_by_frame = s.render_frame_by_frame := by
  unfold pauseAnimationOnRequest; split <;> rfl

@[simp]
theorem pauseOnRequest_fps (s : State) :
    (pauseAnimationOnRequest s).target_fps = s.target_fps := by
  unfold pauseAnimationOnRequest; split <;> rfl

@[simp]
theorem pauseOnRequest_frames (s : State) :
    (pauseAnimationOnRequest s).rendered_frames_counter = s.rendered_frames_counter := by
  unfold pauseAnimationOnRequest; split <;> rfl

@[simp]
theorem pauseOnRequest_capacity (s : State) :
    (pauseAnimationOnRequest s).capacity = s.capacity := by
  unfold pauseAnimationOnRequest; split <;> rfl

@[simp]
theorem pauseOnRequest_signals (s : State) :
    (pauseAnimationOnRequest s).finished_signals = s.finished_signals := by
  unfold pauseAnimationOnRequest; split <;> rfl

@[simp]
theorem relTime_queue (s : State) (now d : ℝ) :
    (computeRelativeProgressInTime s now d).2.queue = s.queue := by
  unfold computeRelativeProgressInTime; split <;> rfl

@[simp]
theorem relTime_animate (s : State) (now d : ℝ) :
    (computeRelativeProgressInTime s now d).2.animate = s.animate := by
  unfold computeRelativeProgressInTime; split <;> rfl

@[simp]
theorem relTime_eye (s : State) (now d : ℝ) :
    (computeRelativeProgressInTime s now d).2.eye = s.eye := by
  unfold computeRelativeProgressInTime; split <;> rfl

@[simp]
theorem relTime_focus (s : State) (now d : ℝ) :
    (computeRelativeProgressInTime s now d).2.focus = s.focus := by
  unfold computeRelativeProgressInTime; split <;> rfl

@[simp]
theorem relTime_up (s : State) (now d : ℝ) :
    (computeRelativeProgressInTime s now d).2.up = s.up := by
  unfold computeRelativeProgressInTime; split <;> rfl

@[simp]
theorem relTime_start_time (s : State) (now d : ℝ) :
    (computeRelativeProgressInTime s now d).2.transition_start_time
      = s.transition_start_time := by
  unfold computeRelativeProgressInTime; split <;> rfl

@[simp]
theorem relTime_flag (s : State) (now d : ℝ) :
    (computeRelativeProgressInTime s now d).2.render_frame_by_frame
      = s.render_frame_by_frame := by
  unfold computeRelativeProgressInTime; split <;> rfl

@[simp]
theorem relTime_fps (s : State) (now d : ℝ) :
    (computeRelativeProgressInTime s now d).2.target_fps = s.target_fps := by
  unfold computeRelativeProgressInTime; split <;> rfl

@[simp]
theorem relTime_pause (s : State) (now d : ℝ) :
    (computeRelativeProgressInTime s now d).2.pause_animation_duration
      = s.pause_animation_duration := by
  unfold computeRelativeProgressInTime; split <;> rfl

@[simp]
theorem relTime_capacity (s : State) (now d : ℝ) :
    (computeRelativeProgressInTime s now d).2.capacity = s.capacity := by
  unfold computeRelativeProgressInTime; split <;> rfl

@[simp]
theorem relTime_signals (s : State) (now d : ℝ) :
    (computeRelativeProgressInTime s now d).2.finished_signals = s.finished_signals := by
  unfold computeRelativeProgressInTime; split <;> rfl

@[simp]
theorem cancel_queue (s : State) : (cancelTransition s).queue = [] := by
  simp only [cancelTransition]; split <;> rfl

@[simp]
theorem cancel_animate (s : State) : (cancelTransition s).animate = false := by
  simp only [cancelTransition]; split <;> rfl

@[simp]
theorem cancel_frames (s : State) :
    (cancelTransition s).rendered_frames_counter = 0 := by
  simp only [cancelTransition]; split <;> rfl

@[simp]
theorem cancel_eye (s : State) : (cancelTransition s).eye = s.eye := by
  simp only [cancelTransition]; split <;> rfl

@[simp]
theorem cancel_focus (s : State) : (cancelTransition s).focus = s.focus := by
  simp only [cancelTransition]; split <;> rfl

@[simp]
theorem cancel_up (s : State) : (cancelTransition s).up = s.up := by
  simp only [cancelTransition]; split <;> rfl

@[simp]
theorem cancel_flag (s : State) :
    (cancelTransition s).render_frame_by_frame = false := by
  simp only [cancelTransition]; split <;> simp_all

@[simp]
theorem cancel_start_time (s : State) :
    (cancelTransition s).transition_start_time = s.transition_start_time := by
  simp only [cancelTransition]; split <;> rfl

@[simp]
theorem cancel_pause (s : State) :
    (cancelTransition s).pause_animation_duration = s.pause_animation_duration := by
  simp only [cancelTransition]; split <;> rfl

@[simp]
theorem cancel_capacity (s : State) : (cancelTransition s).capacity = s.capacity := by
  simp only [cancelTransition]; split <;> rfl

theorem cancel_signals (s : State) :
    (cancelTransition s).finished_signals
      = s.finished_signals + (if s.render_frame_by_frame then 1 else 0) := by
  unfold cancelTransition
  by_cases h : s.render_frame_by_frame <;> simp [h]

/- Endpoint values of the interpolation function. -/

theorem space_zero (speed : ℕ) : computeRelativeProgressInSpace 0 speed = 0 := by
  unfold computeRelativeProgressInSpace
  match speed with
  | 0 => simp
  | 1 => simp [Real.cos_pi_div_two]
  | 2 => rfl
  | (n + 3) => simp

theorem space_one (speed : ℕ) : computeRelativeProgressInSpace 1 speed = 1 := by
  unfold computeRelativeProgressInSpace
  match speed with
  | 0 => simp [Real.cos_pi_div_two]
  | 1 => rw [one_mul, add_halves, Real.cos_pi]; norm_num
  | 2 => rfl
  | (n + 3) =>
    show (0.5 : ℝ) * (1 - Real.cos (1 * Real.pi)) = 1
    rw [one_mul, Real.cos_pi]; norm_num

theorem lerp_one (a b : Vec3) : lerp a b 1 = b := by
  unfold lerp; ext <;> ring

theorem lerp_zero (a b : Vec3) : lerp a b 0 = a := by
  unfold lerp; ext <;> ring

/- Characterisations of the public operations. -/

theorem update_eq_animating (s : State) (now : ℝ) (start goal : Movement)
    (rest : List Movement) (hA : s.animate = true)
    (hq : s.queue = start :: goal :: rest) :
    update s now = updateAnimating s now start goal := by
  unfold update
  rw [hq, hA]
  rfl

theorem update_idle (s : State) (now : ℝ) (h : s.animate = false) :
    update s now = s := by
  unfold update
  rw [h]
  rfl

theorem update_short (s : State) (now : ℝ) (h : s.queue.length < 2) :
    update s now = s := by
  unfold update
  cases hb : s.animate with
  | false => rfl
  | true =>
    rcases hq : s.queue with _ | ⟨a, _ | ⟨b, t⟩⟩
    · rfl
    · rfl
    · rw [hq] at h; simp only [List.length_cons] at h; omega

theorem update_finished (s : State) (now : ℝ) (start goal : Movement)
    (rest : List Movement) (hA : s.animate = true)
    (hq : s.queue = start :: goal :: rest)
    (hf : 1 ≤ (computeRelativeProgressInTime (pauseAnimationOnRequest s) now
                goal.transition_duration).1) :
    (update s now).eye = goal.eye ∧
    (update s now).focus = goal.focus ∧
    (update s now).up = goal.up ∧
    (rest ≠ [] →
      (update s now).queue = goal :: rest ∧
      (update s now).animate = true ∧
      (update s now).transition_start_time
        = (pauseAnimationOnRequest s).transition_start_time + goal.transition_duration ∧
      (update s now).rendered_frames_counter = 0) ∧
    (rest = [] →
      (update s now).queue = [] ∧
      (update s now).animate = false ∧
      (update s now).rendered_frames_counter = 0) := by
  rw [update_eq_animating s now start goal rest hA hq]
  simp only [updateAnimating]
  rw [if_pos hf, if_pos hf]
  simp only [space_one, lerp_one, relTime_queue, pauseOnRequest_queue, hq,
    List.tail_cons, List.length_cons]
  rcases rest with _ | ⟨r, rs⟩
  · simp [cancel_signals]
  · simp [prepareNextMovement, hA]

theorem update_not_finished (s : State) (now : ℝ) (start goal : Movement)
    (rest : List Movement) (hA : s.animate = true)
    (hq : s.queue = start :: goal :: rest)
    (hf : (computeRelativeProgressInTime (pauseAnimationOnRequest s) now
            goal.transition_duration).1 < 1) :
    update s now =
      { (computeRelativeProgressInTime (pauseAnimationOnRequest s) now
          goal.transition_duration).2 with
        eye := lerp start.eye goal.eye (progressOf s now goal),
        focus := lerp start.focus goal.focus (progressOf s now goal),
        up := lerp start.up goal.up (progressOf s now goal) } := by
  rw [update_eq_animating s now start goal rest hA hq]
  simp only [updateAnimating, progressOf]
  rw [if_neg (not_le.mpr hf), if_neg (not_le.mpr hf)]

theorem update_pose (s : State) (now : ℝ) (start goal : Movement)
    (rest : List Movement) (hA : s.animate = true)
    (hq : s.queue = start :: goal :: rest) :
    (update s now).eye = lerp start.eye goal.eye (progressOf s now goal) ∧
    (update s now).focus = lerp start.focus goal.focus (progressOf s now goal) ∧
    (update s now).up = lerp start.up goal.up (progressOf s now goal) := by
  by_cases hf : 1 ≤ (computeRelativeProgressInTime (pauseAnimationOnRequest s) now
                      goal.transition_duration).1
  · have h := update_finished s now start goal rest hA hq hf
    have hp : progressOf s now goal = 1 := by
      unfold progressOf
      rw [if_pos hf, space_one]
    rw [hp, lerp_one, lerp_one, lerp_one]
    exact ⟨h.1, h.2.1, h.2.2.1⟩
  · have h := update_not_finished s now start goal rest hA hq (not_le.mp hf)
    rw [h]
    exact ⟨rfl, rfl, rfl⟩

theorem begin_neg (s : State) (e f u : Vec3) (d : ℝ) (sp : ℕ) (now : ℝ)
    (hd : d < 0) : beginNewTransition s e f u d sp now = s := by
  unfold beginNewTransition
  rw [if_pos hd]

theorem begin_empty (s : State) (e f u : Vec3) (d : ℝ) (sp : ℕ) (now : ℝ)
    (hq : s.queue = []) (hd : 0 ≤ d) :
    beginNewTransition s e f u d sp now =
      { s with
        transition_start_time := now,
        queue := [⟨s.eye, s.focus, s.up, 0.001, sp⟩,
                  ⟨e, f, u, if d = 0 then 0.001 else d, sp⟩],
        animate := true,
        capacity := if 1 = s.capacity then s.capacity + 20 else s.capacity } := by
  simp only [beginNewTransition]
  rw [if_neg (not_lt.mpr hd), hq]
  simp only [List.isEmpty_nil, if_true]
  split <;> simp_all

theorem begin_nonempty (s : State) (e f u : Vec3) (d : ℝ) (sp : ℕ) (now : ℝ)
    (hq : s.queue ≠ []) (hd : 0 ≤ d) :
    beginNewTransition s e f u d sp now =
      { s with
        queue := s.queue ++ [⟨e, f, u, if d = 0 then 0.001 else d, sp⟩],
        animate := true,
        capacity := if s.queue.length = s.capacity then s.capacity + 20
                    else s.capacity } := by
  obtain ⟨a, t, hat⟩ := List.exists_cons_of_ne_nil hq
  simp only [beginNewTransition]
  rw [if_neg (not_lt.mpr hd), hat]
  simp only [List.isEmpty_cons, Bool.false_eq_true, if_false]
  split <;> simp_all

theorem relTime_val_time (s : State) (now d : ℝ)
    (h : s.render_frame_by_frame = false) :
    (computeRelativeProgressInTime s now d).1
      = (now - s.transition_start_time) / d := by
  unfold computeRelativeProgressInTime
  rw [h]
  rfl

theorem relTime_val_frames (s : State) (now d : ℝ)
    (h : s.render_frame_by_frame = true) :
    (computeRelativeProgressInTime s now d).1
      = (s.rendered_frames_counter : ℝ) / ((s.target_fps : ℝ) * d) := by
  unfold computeRelativeProgressInTime
  rw [h]
  rfl

theorem relTime_snd_frames (s : State) (now d : ℝ)
    (h : s.render_frame_by_frame = true) :
    (computeRelativeProgressInTime s now d).2
      = { s with rendered_frames_counter := s.rendered_frames_counter + 1 } := by
  unfold computeRelativeProgressInTime
  rw [h]
  rfl

theorem pause_noop (s : State) (h : s.pause_animation_duration ≤ 0) :
    pauseAnimationOnRequest s = s := by
  unfold pauseAnimationOnRequest
  rw [if_neg (not_lt.mpr h)]

theorem pause_apply (s : State) (h : 0 < s.pause_animation_duration) :
    pauseAnimationOnRequest s
      = { s with
          transition_start_time
            := s.transition_start_time + s.pause_animation_duration,
          pause_animation_duration := 0 } := by
  unfold pauseAnimationOnRequest
  rw [if_pos h]

theorem pause_idem (s : State) :
    pauseAnimationOnRequest (pauseAnimationOnRequest s)
      = pauseAnimationOnRequest s := by
  by_cases h : 0 < s.pause_animation_duration
  · rw [pause_apply s h]
    apply pause_noop
    norm_num
  · rw [pause_noop s (not_lt.mp h)]
    exact pause_noop s (not_lt.mp h)

theorem enqueueAll_length (reqs : List Req) : ∀ (s : State) (now : ℝ),
    s.queue ≠ [] → (∀ r ∈ reqs, 0 ≤ r.transition_duration) →
    (enqueueAll s reqs now).queue.length = s.queue.length + reqs.length ∧
    (enqueueAll s reqs now).queue ≠ [] := by
  induction reqs with
  | nil =>
    intro s now hne _
    exact ⟨by simp [enqueueAll], hne⟩
  | cons r rs ih =>
    intro s now hne hv
    have hr : 0 ≤ r.transition_duration := hv r (by simp)
    have hstep := begin_nonempty s r.eye r.focus r.up r.transition_duration
      r.interpolation_speed now hne hr
    have hrw : enqueueAll s (r :: rs) now
        = enqueueAll (beginNewTransition s r.eye r.focus r.up
            r.transition_duration r.interpolation_speed now) rs now := rfl
    have hne2 : (beginNewTransition s r.eye r.focus r.up r.transition_duration
        r.interpolation_speed now).queue ≠ [] := by
      rw [hstep]; simp
    have hlen2 : (beginNewTransition s r.eye r.focus r.up r.transition_duration
        r.interpolation_speed now).queue.length = s.queue.length + 1 := by
      rw [hstep]; simp
    obtain ⟨h1, h2⟩ := ih _ now hne2 (fun q hq => hv q (List.mem_cons_of_mem r hq))
    rw [hrw]
    refine ⟨?_, h2⟩
    rw [h1, hlen2]
    simp only [List.length_cons]
    omega

/- Claim theorems. -/

/-- C3: for every interpolation style (RISING, DECLINING, FULL, WAVE, and
any unrecognised tag, which falls back to the WAVE curve), the
space-fraction function maps time fraction 0 to 0 and time fraction 1 to
1, within a tolerance of 1e-6. -/
theorem space_fraction_endpoints (speed : ℕ) :
    |computeRelativeProgressInSpace 0 speed - 0| ≤ 1e-6 ∧
    |computeRelativeProgressInSpace 1 speed - 1| ≤ 1e-6 := by
  rw [space_zero, space_one]
  norm_num

/-- C5: an enqueue request with strictly negative duration is a no-op:
the state (queue, engine mode, clock fields) is returned unchanged, and
beginNewTransition is a total function, so no exception is raised. -/
theorem enqueue_negative_noop (s : State) (e f u : Vec3) (d : ℝ) (sp : ℕ)
    (now : ℝ) (hd : d < 0) :
    beginNewTransition s e f u d sp now = s :=
  begin_neg s e f u d sp now hd

/-- Witness for C5 at a concrete idle state and duration minus one. -/
theorem enqueue_negative_noop_witness :
    (-1 : ℝ) < 0 ∧
    beginNewTransition idleState ⟨1, 1, 1⟩ ⟨0, 0, 0⟩ ⟨0, 0, 1⟩ (-1) 2 5
      = idleState :=
  ⟨by norm_num,
   enqueue_negative_noop idleState ⟨1, 1, 1⟩ ⟨0, 0, 0⟩ ⟨0, 0, 1⟩ (-1) 2 5
     (by norm_num)⟩

/-- C4: cancelTransition clears the queue, resets the frame counter,
makes the engine idle, publishes exactly one finished-animation message
precisely when frame-by-frame rendering was active while clearing that
flag, is idempotent (a second call changes nothing and publishes
nothing), and afterwards any sequence of ticks leaves the state
untouched until a new enqueue occurs. -/
theorem cancel_transition_contract (s : State) :
    (cancelTransition s).queue = [] ∧
    (cancelTransition s).rendered_frames_counter = 0 ∧
    (cancelTransition s).animate = false ∧
    (cancelTransition s).finished_signals
      = s.finished_signals + (if s.render_frame_by_frame then 1 else 0) ∧
    (cancelTransition s).render_frame_by_frame = false ∧
    cancelTransition (cancelTransition s) = cancelTransition s ∧
    ∀ nows : List ℝ, nows.foldl update (cancelTransition s) = cancelTransition s := by
  refine ⟨cancel_queue s, cancel_frames s, cancel_animate s, cancel_signals s,
    cancel_flag s, ?_, ?_⟩
  · by_cases h : s.render_frame_by_frame = true <;> simp [cancelTransition, h]
  · intro nows
    induction nows with
    | nil => rfl
    | cons a t ih =>
      rw [List.foldl_cons, update_idle _ _ (cancel_animate s), ih]

/-- C1: on a tick whose computed time fraction reaches or exceeds one,
the fraction is clamped to one, so the emitted pose equals the goal
element exactly; the front element is popped; then, when at least two
elements remain, the clock start reference is advanced by the finished
segment duration and the frame counter is reset to zero, and otherwise
the transition is cancelled and the engine becomes idle. -/
theorem tick_completion (s : State) (now : ℝ) (start goal : Movement)
    (rest : List Movement) (hA : s.animate = true)
    (hq : s.queue = start :: goal :: rest)
    (hf : 1 ≤ (computeRelativeProgressInTime (pauseAnimationOnRequest s) now
                goal.transition_duration).1) :
    (update s now).eye = goal.eye ∧
    (update s now).focus = goal.focus ∧
    (update s now).up = goal.up ∧
    (rest ≠ [] →
      (update s now).queue = goal :: rest ∧
      (update s now).animate = true ∧
      (update s now).transition_start_time
        = (pauseAnimationOnRequest s).transition_start_time + goal.transition_duration ∧
      (update s now).rendered_frames_counter = 0) ∧
    (rest = [] →
      (update s now).queue = [] ∧
      (update s now).animate = false ∧
      (update s now).rendered_frames_counter = 0) :=
  update_finished s now start goal rest hA hq hf

/-- Witness for C1: the concrete run that finishes the segment toward m1
at time two seconds, draining the buffer and going idle with the pose at
the m1 targets. -/
theorem tick_completion_witness :
    animState.animate = true ∧
    animState.queue = [m0, m1] ∧
    1 ≤ (computeRelativeProgressInTime (pauseAnimationOnRequest animState) 2
          m1.transition_duration).1 ∧
    (update animState 2).eye = m1.eye ∧
    (update animState 2).focus = m1.focus ∧
    (update animState 2).queue = [] ∧
    (update animState 2).animate = false := by
  have hf : 1 ≤ (computeRelativeProgressInTime (pauseAnimationOnRequest animState) 2
                  m1.transition_duration).1 := by
    norm_num [computeRelativeProgressInTime, pauseAnimationOnRequest, animState, m1]
  have h := tick_completion animState 2 m0 m1 [] rfl rfl hf
  exact ⟨rfl, rfl, hf, h.1, h.2.1, (h.2.2.2.2 rfl).1, (h.2.2.2.2 rfl).2.1⟩

/-- C8: an enqueue onto a buffer that is at capacity grows the capacity
(by 20) before pushing; every previously queued element is still present
in its original FIFO order with the new descriptor at the tail, and the
resulting length stays within the new capacity, so no element is ever
dropped. -/
theorem enqueue_capacity_growth (s : State) (e f u : Vec3) (d : ℝ) (sp : ℕ)
    (now : ℝ) (hfull : s.queue.length = s.capacity) (hpos : 0 < s.capacity)
    (hd : 0 ≤ d) :
    (beginNewTransition s e f u d sp now).queue
      = s.queue ++ [⟨e, f, u, if d = 0 then 0.001 else d, sp⟩] ∧
    (beginNewTransition s e f u d sp now).capacity = s.capacity + 20 ∧
    (beginNewTransition s e f u d sp now).queue.length
      ≤ (beginNewTransition s e f u d sp now).capacity := by
  have hne : s.queue ≠ [] := by
    intro h0
    rw [h0] at hfull
    simp at hfull
    omega
  rw [begin_nonempty s e f u d sp now hne hd]
  refine ⟨rfl, ?_, ?_⟩
  · simp [hfull]
  · simp [hfull]

/-- Witness for C8 at a concrete state whose buffer is at capacity. -/
theorem enqueue_capacity_growth_witness :
    fullState.queue.length = fullState.capacity ∧
    0 < fullState.capacity ∧
    (0 : ℝ) ≤ 1 ∧
    (beginNewTransition fullState ⟨1, 1, 1⟩ ⟨0, 0, 0⟩ ⟨0, 0, 1⟩ 1 2 0).queue
      = fullState.queue
          ++ [⟨⟨1, 1, 1⟩, ⟨0, 0, 0⟩, ⟨0, 0, 1⟩, if (1 : ℝ) = 0 then 0.001 else 1, 2⟩] ∧
    (beginNewTransition fullState ⟨1, 1, 1⟩ ⟨0, 0, 0⟩ ⟨0, 0, 1⟩ 1 2 0).capacity
      = fullState.capacity + 20 := by
  have h := enqueue_capacity_growth fullState ⟨1, 1, 1⟩ ⟨0, 0, 0⟩ ⟨0, 0, 1⟩ 1 2 0
    rfl (by norm_num [fullState]) (by norm_num)
  exact ⟨rfl, by norm_num [fullState], by norm_num, h.1, h.2.1⟩

/-- C10: enqueuing while the engine is animating (buffer non-empty)
appends only at the tail: the transition start time, the rendered frame
counter, the current pose, the pending pause and every element already in
the buffer are left unchanged, and the engine keeps animating, so the
visible progress of the in-progress segment is unaffected. -/
theorem enqueue_while_animating (s : State) (e f u : Vec3) (d : ℝ) (sp : ℕ)
    (now : ℝ) (hne : s.queue ≠ []) (hd : 0 ≤ d) :
    (beginNewTransition s e f u d sp now).queue
      = s.queue ++ [⟨e, f, u, if d = 0 then 0.001 else d, sp⟩] ∧
    (beginNewTransition s e f u d sp now).transition_start_time
      = s.transition_start_time ∧
    (beginNewTransition s e f u d sp now).rendered_frames_counter
      = s.rendered_frames_counter ∧
    (beginNewTransition s e f u d sp now).animate = true ∧
    (beginNewTransition s e f u d sp now).eye = s.eye ∧
    (beginNewTransition s e f u d sp now).focus = s.focus ∧
    (beginNewTransition s e f u d sp now).up = s.up ∧
    (beginNewTransition s e f u d sp now).pause_animation_duration
      = s.pause_animation_duration ∧
    (beginNewTransition s e f u d sp now).render_frame_by_frame
      = s.render_frame_by_frame := by
  rw [begin_nonempty s e f u d sp now hne hd]
  exact ⟨rfl, rfl, rfl, rfl, rfl, rfl, rfl, rfl, rfl⟩

/-- Witness for C10 at a concrete animating state. -/
theorem enqueue_while_animating_witness :
    animState.queue ≠ [] ∧
    (0 : ℝ) ≤ 1 ∧
    (beginNewTransition animState ⟨1, 1, 1⟩ ⟨0, 0, 0⟩ ⟨0, 0, 1⟩ 1 2 7).queue
      = animState.queue
          ++ [⟨⟨1, 1, 1⟩, ⟨0, 0, 0⟩, ⟨0, 0, 1⟩, if (1 : ℝ) = 0 then 0.001 else 1, 2⟩] ∧
    (beginNewTransition animState ⟨1, 1, 1⟩ ⟨0, 0, 0⟩ ⟨0, 0, 1⟩ 1 2 7).transition_start_time
      = animState.transition_start_time ∧
    (beginNewTransition animState ⟨1, 1, 1⟩ ⟨0, 0, 0⟩ ⟨0, 0, 1⟩ 1 2 7).rendered_frames_counter
      = animState.rendered_frames_counter := by
  have hne : animState.queue ≠ [] := by simp [animState]
  have h := enqueue_while_animating animState ⟨1, 1, 1⟩ ⟨0, 0, 0⟩ ⟨0, 0, 1⟩ 1 2 7
    hne (by norm_num)
  exact ⟨hne, by norm_num, h.1, h.2.1, h.2.2.1⟩

/-- C2: an enqueue from idle (empty buffer) with non-negative duration
first pushes a synthetic front element equal to the current pose with a
minimal duration and then the requested descriptor, and sets the engine
animating; enqueuing N valid movements from idle yields exactly N plus
one buffered elements; every public operation preserves the invariant
that an animating engine holds at least two elements while an idle one
holds none; and the pose a tick emits is always the interpolation between
queue positions 0 and 1. -/
theorem animating_queue_invariant :
    (∀ (s : State) (e f u : Vec3) (d : ℝ) (sp : ℕ) (now : ℝ),
      s.queue = [] → 0 ≤ d →
      (beginNewTransition s e f u d sp now).queue
        = [⟨s.eye, s.focus, s.up, 0.001, sp⟩,
           ⟨e, f, u, if d = 0 then 0.001 else d, sp⟩] ∧
      (beginNewTransition s e f u d sp now).animate = true) ∧
    (∀ (s : State) (reqs : List Req) (now : ℝ),
      s.queue = [] → reqs ≠ [] →
      (∀ r ∈ reqs, 0 ≤ r.transition_duration) →
      (enqueueAll s reqs now).queue.length = reqs.length + 1) ∧
    (∀ (s : State) (op : Op), AnimInv s → AnimInv (step s op)) ∧
    (∀ (s : State) (now : ℝ) (a b : Movement) (t : List Movement),
      s.animate = true → s.queue = a :: b :: t →
      (update s now).eye = lerp a.eye b.eye (progressOf s now b) ∧
      (update s now).focus = lerp a.focus b.focus (progressOf s now b) ∧
      (update s now).up = lerp a.up b.up (progressOf s now b)) := by
  refine ⟨?_, ?_, ?_, ?_⟩
  · intro s e f u d sp now hq hd
    rw [begin_empty s e f u d sp now hq hd]
    exact ⟨rfl, rfl⟩
  · intro s reqs now hq hne hv
    rcases reqs with _ | ⟨r, rs⟩
    · exact absurd rfl hne
    · have hr : 0 ≤ r.transition_duration := hv r (by simp)
      have h0 := begin_empty s r.eye r.focus r.up r.transition_duration
        r.interpolation_speed now hq hr
      have hrw : enqueueAll s (r :: rs) now
          = enqueueAll (beginNewTransition s r.eye r.focus r.up
              r.transition_duration r.interpolation_speed now) rs now := rfl
      have hne2 : (beginNewTransition s r.eye r.focus r.up r.transition_duration
          r.interpolation_speed now).queue ≠ [] := by
        rw [h0]; simp
      have hlen2 : (beginNewTransition s r.eye r.focus r.up r.transition_duration
          r.interpolation_speed now).queue.length = 2 := by
        rw [h0]
        rfl
      obtain ⟨h1, _⟩ := enqueueAll_length rs _ now hne2
        (fun q hqm => hv q (List.mem_cons_of_mem r hqm))
      rw [hrw, h1, hlen2]
      simp only [List.length_cons]
      omega
  · intro s op hInv
    obtain ⟨hA2, hI⟩ := hInv
    cases op with
    | enqueue e f u d sp now =>
      show AnimInv (beginNewTransition s e f u d sp now)
      by_cases hd : d < 0
      · rw [begin_neg s e f u d sp now hd]
        exact ⟨hA2, hI⟩
      · have hd2 : 0 ≤ d := not_lt.mp hd
        by_cases hq : s.queue = []
        · rw [begin_empty s e f u d sp now hq hd2]
          refine ⟨fun _ => by simp, fun hx => absurd hx (by simp)⟩
        · rw [begin_nonempty s e f u d sp now hq hd2]
          refine ⟨fun _ => ?_, fun hx => absurd hx (by simp)⟩
          have hp := List.length_pos.mpr hq
          simp only [List.length_append, List.length_cons, List.length_nil]
          omega
    | tick now =>
      show AnimInv (update s now)
      cases hb : s.animate with
      | false =>
        rw [update_idle s now hb]
        exact ⟨hA2, hI⟩
      | true =>
        have hlen := hA2 hb
        rcases hql : s.queue with _ | ⟨a, _ | ⟨b, t⟩⟩
        · rw [hql] at hlen
          simp only [List.length_nil] at hlen
          omega
        · rw [hql] at hlen
          simp only [List.length_cons, List.length_nil] at hlen
          omega
        · by_cases hf : 1 ≤ (computeRelativeProgressInTime
              (pauseAnimationOnRequest s) now b.transition_duration).1
          · have h := update_finished s now a b t hb hql hf
            rcases t with _ | ⟨c, cs⟩
            · obtain ⟨hq0, hA0, _⟩ := h.2.2.2.2 rfl
              refine ⟨fun hx => ?_, fun _ => hq0⟩
              rw [hA0] at hx
              exact absurd hx (by simp)
            · obtain ⟨hq1, hA1, _, _⟩ := h.2.2.2.1 (by simp)
              refine ⟨fun _ => ?_, fun hx => ?_⟩
              · rw [hq1]
                simp only [List.length_cons]
                omega
              · rw [hA1] at hx
                exact absurd hx (by simp)
          · have h := update_not_finished s now a b t hb hql (not_le.mp hf)
            rw [h]
            refine ⟨fun _ => ?_, fun hx => ?_⟩
            · simp only [relTime_queue, pauseOnRequest_queue, hql, List.length_cons]
              omega
            · simp [hb] at hx
    | cancel =>
      show AnimInv (cancelTransition s)
      refine ⟨fun hx => ?_, fun _ => cancel_queue s⟩
      rw [cancel_animate] at hx
      exact absurd hx (by simp)
    | pause d =>
      show AnimInv (pauseAnimationCallback s d)
      exact ⟨hA2, hI⟩
  · intro s now a b t hA hq
    exact update_pose s now a b t hA hq

/-- Witness for C2: concrete instances of the four invariant facts. -/
theorem animating_queue_invariant_witness :
    (idleState.queue = [] ∧ (0 : ℝ) ≤ 1 ∧
      (beginNewTransition idleState ⟨1, 1, 1⟩ ⟨0, 0, 0⟩ ⟨0, 0, 1⟩ 1 2 0).queue
        = [⟨idleState.eye, idleState.focus, idleState.up, 0.001, 2⟩,
           ⟨⟨1, 1, 1⟩, ⟨0, 0, 0⟩, ⟨0, 0, 1⟩, if (1 : ℝ) = 0 then 0.001 else 1, 2⟩]) ∧
    (enqueueAll idleState [⟨⟨1, 1, 1⟩, ⟨0, 0, 0⟩, ⟨0, 0, 1⟩, 1, 2⟩] 0).queue.length
      = 2 ∧
    (AnimInv idleState ∧ AnimInv (step idleState Op.cancel)) ∧
    (update animState 3).eye = lerp m0.eye m1.eye (progressOf animState 3 m1) := by
  have hinv : AnimInv idleState := by
    constructor
    · intro hx
      exact absurd hx (by simp [idleState])
    · intro _
      rfl
  refine ⟨⟨rfl, by norm_num, ?_⟩, ?_, ⟨hinv, ?_⟩, ?_⟩
  · exact (animating_queue_invariant.1 idleState ⟨1, 1, 1⟩ ⟨0, 0, 0⟩ ⟨0, 0, 1⟩
      1 2 0 rfl (by norm_num)).1
  · have hv : ∀ r ∈ ([⟨⟨1, 1, 1⟩, ⟨0, 0, 0⟩, ⟨0, 0, 1⟩, 1, 2⟩] : List Req),
        0 ≤ r.transition_duration := by
      intro r hr
      simp at hr
      rw [hr]
      norm_num
    have h2 := animating_queue_invariant.2.1 idleState
      [⟨⟨1, 1, 1⟩, ⟨0, 0, 0⟩, ⟨0, 0, 1⟩, 1, 2⟩] 0 rfl (by simp) hv
    simpa using h2
  · exact animating_queue_invariant.2.2.1 idleState Op.cancel hinv
  · exact (animating_queue_invariant.2.2.2 animState 3 m0 m1 [] rfl rfl).1

/-- C6: a zero-duration enqueue stores the descriptor with the substituted
minimal duration 0.001 at the tail; every public operation preserves
positivity of all buffered durations, so the duration that divides the
time-fraction computation is never zero; and a 0.001-duration segment
completes within one tick in wall-clock mode (once 0.001 s elapsed) and
within two ticks in frame-by-frame mode (for any target fps up to
1000). -/
theorem zero_duration_enqueue_safe :
    (∀ (s : State) (e f u : Vec3) (sp : ℕ) (now : ℝ),
      (beginNewTransition s e f u 0 sp now).queue.getLast?
        = some ⟨e, f, u, 0.001, sp⟩) ∧
    (∀ (s : State) (op : Op), DurPos s → DurPos (step s op)) ∧
    (∀ (s : State) (a b : Movement) (t : List Movement),
      DurPos s → s.queue = a :: b :: t → b.transition_duration ≠ 0) ∧
    (∀ (s : State) (now : ℝ) (a b : Movement),
      s.animate = true → s.queue = [a, b] → b.transition_duration = 0.001 →
      s.render_frame_by_frame = false → s.pause_animation_duration ≤ 0 →
      s.transition_start_time + 0.001 ≤ now →
      (update s now).queue = [] ∧ (update s now).animate = false) ∧
    (∀ (s : State) (now1 now2 : ℝ) (a b : Movement),
      s.animate = true → s.queue = [a, b] → b.transition_duration = 0.001 →
      s.render_frame_by_frame = true → s.pause_animation_duration ≤ 0 →
      s.rendered_frames_counter = 0 → 0 < s.target_fps → s.target_fps ≤ 1000 →
      (update (update s now1) now2).queue = [] ∧
      (update (update s now1) now2).animate = false) := by
  refine ⟨?_, ?_, ?_, ?_, ?_⟩
  · intro s e f u sp now
    by_cases hq : s.queue = []
    · rw [begin_empty s e f u 0 sp now hq le_rfl]
      simp
    · rw [begin_nonempty s e f u 0 sp now hq le_rfl]
      simp
  · intro s op hD
    cases op with
    | enqueue e f u d sp now =>
      show DurPos (beginNewTransition s e f u d sp now)
      by_cases hd : d < 0
      · rw [begin_neg s e f u d sp now hd]
        exact hD
      · have hd2 : 0 ≤ d := not_lt.mp hd
        have hdur : (0 : ℝ) < if d = 0 then 0.001 else d := by
          by_cases h0 : d = 0
          · rw [if_pos h0]
            norm_num
          · rw [if_neg h0]
            exact lt_of_le_of_ne hd2 (Ne.symm h0)
        by_cases hq : s.queue = []
        · rw [begin_empty s e f u d sp now hq hd2]
          intro m hm
          simp only [List.mem_cons, List.not_mem_nil, or_false] at hm
          rcases hm with rfl | rfl
          · norm_num
          · exact hdur
        · rw [begin_nonempty s e f u d sp now hq hd2]
          intro m hm
          simp only [List.mem_append, List.mem_cons, List.not_mem_nil, or_false] at hm
          rcases hm with hm | rfl
          · exact hD m hm
          · exact hdur
    | tick now =>
      show DurPos (update s now)
      cases hb : s.animate with
      | false =>
        rw [update_idle s now hb]
        exact hD
      | true =>
        rcases hql : s.queue with _ | ⟨a, _ | ⟨b, t⟩⟩
        · rw [update_short s now (by rw [hql]; simp)]
          exact hD
        · rw [update_short s now (by rw [hql]; simp)]
          exact hD
        · by_cases hf : 1 ≤ (computeRelativeProgressInTime
              (pauseAnimationOnRequest s) now b.transition_duration).1
          · have h := update_finished s now a b t hb hql hf
            rcases t with _ | ⟨c, cs⟩
            · obtain ⟨hq0, _, _⟩ := h.2.2.2.2 rfl
              intro m hm
              rw [hq0] at hm
              simp at hm
            · obtain ⟨hq1, _, _, _⟩ := h.2.2.2.1 (by simp)
              intro m hm
              rw [hq1] at hm
              exact hD m (by rw [hql]; exact List.mem_cons_of_mem a hm)
          · have h := update_not_finished s now a b t hb hql (not_le.mp hf)
            intro m hm
            rw [h] at hm
            simp only [relTime_queue, pauseOnRequest_queue] at hm
            exact hD m hm
    | cancel =>
      show DurPos (cancelTransition s)
      intro m hm
      rw [cancel_queue] at hm
      simp at hm
    | pause d =>
      show DurPos (pauseAnimationCallback s d)
      exact hD
  · intro s a b t hD hq
    exact ne_of_gt (hD b (by rw [hq]; exact List.mem_cons_of_mem a (List.mem_cons_self b t)))
  · intro s now a b hA hq hdur hmode hp ht
    have hps : pauseAnimationOnRequest s = s := pause_noop s hp
    have hf : 1 ≤ (computeRelativeProgressInTime (pauseAnimationOnRequest s) now
        b.transition_duration).1 := by
      rw [hps, hdur, relTime_val_time s now 0.001 hmode]
      rw [le_div_iff₀ (by norm_num)]
      linarith
    have h := update_finished s now a b [] hA hq hf
    exact ⟨(h.2.2.2.2 rfl).1, (h.2.2.2.2 rfl).2.1⟩
  · intro s now1 now2 a b hA hq hdur hmode hp hcnt hfps1 hfps2
    have hps : pauseAnimationOnRequest s = s := pause_noop s hp
    have hlt1 : (computeRelativeProgressInTime (pauseAnimationOnRequest s) now1
        b.transition_duration).1 < 1 := by
      rw [hps, relTime_val_frames s now1 _ hmode, hcnt]
      simp
    have h1 := update_not_finished s now1 a b [] hA hq hlt1
    have hX : (computeRelativeProgressInTime (pauseAnimationOnRequest s) now1
        b.transition_duration).2
        = { s with rendered_frames_counter := s.rendered_frames_counter + 1 } := by
      rw [hps]
      exact relTime_snd_frames s now1 _ hmode
    rw [hX] at h1
    have hA2 : (update s now1).animate = true := by rw [h1]; exact hA
    have hq2 : (update s now1).queue = [a, b] := by rw [h1]; exact hq
    have hp2 : (update s now1).pause_animation_duration ≤ 0 := by rw [h1]; exact hp
    have hm2 : (update s now1).render_frame_by_frame = true := by rw [h1]; exact hmode
    have hc2 : (update s now1).rendered_frames_counter = 1 := by
      rw [h1]
      show s.rendered_frames_counter + 1 = 1
      rw [hcnt]
    have hfpsR : ((update s now1).target_fps : ℝ) = (s.target_fps : ℝ) := by rw [h1]
    have hf2 : 1 ≤ (computeRelativeProgressInTime
        (pauseAnimationOnRequest (update s now1)) now2 b.transition_duration).1 := by
      rw [pause_noop _ hp2, relTime_val_frames _ now2 _ hm2, hc2, hdur, hfpsR]
      have hfpR : (0 : ℝ) < (s.target_fps : ℝ) := by exact_mod_cast hfps1
      have hle : (s.target_fps : ℝ) ≤ 1000 := by exact_mod_cast hfps2
      have hden : (0 : ℝ) < (s.target_fps : ℝ) * 0.001 := by nlinarith
      rw [le_div_iff₀ hden]
      push_cast
      nlinarith
    have h := update_finished (update s now1) now2 a b [] hA2 hq2 hf2
    exact ⟨(h.2.2.2.2 rfl).1, (h.2.2.2.2 rfl).2.1⟩

/-- Witness for C6: concrete instances of the five facts, with the
near-instant segment completing in one wall-clock tick and in two
frame-by-frame ticks at 60 fps. -/
theorem zero_duration_enqueue_safe_witness :
    (beginNewTransition idleState ⟨5, 5, 5⟩ ⟨0, 0, 0⟩ ⟨0, 0, 1⟩ 0 2 0).queue.getLast?
      = some ⟨⟨5, 5, 5⟩, ⟨0, 0, 0⟩, ⟨0, 0, 1⟩, 0.001, 2⟩ ∧
    (DurPos animState ∧ DurPos (step animState (Op.tick 0))) ∧
    (animState.queue = m0 :: m1 :: [] ∧ m1.transition_duration ≠ 0) ∧
    (zState.transition_start_time + 0.001 ≤ 1 ∧
      (update zState 1).queue = [] ∧ (update zState 1).animate = false) ∧
    (0 < fState.target_fps ∧ fState.target_fps ≤ 1000 ∧
      (update (update fState 0) 0).queue = [] ∧
      (update (update fState 0) 0).animate = false) := by
  have hDanim : DurPos animState := by
    intro m hm
    simp only [animState, List.mem_cons, List.not_mem_nil, or_false] at hm
    rcases hm with rfl | rfl
    · norm_num [m0]
    · norm_num [m1]
  refine ⟨?_, ⟨hDanim, zero_duration_enqueue_safe.2.1 animState (Op.tick 0) hDanim⟩,
    ⟨rfl, ?_⟩, ?_, ?_⟩
  · exact zero_duration_enqueue_safe.1 idleState ⟨5, 5, 5⟩ ⟨0, 0, 0⟩ ⟨0, 0, 1⟩ 2 0
  · exact zero_duration_enqueue_safe.2.2.1 animState m0 m1 [] hDanim rfl
  · have h := zero_duration_enqueue_safe.2.2.2.1 zState 1 m0 mz rfl rfl rfl rfl
      (by norm_num [zState]) (by norm_num [zState])
    exact ⟨by norm_num [zState], h.1, h.2⟩
  · have h := zero_duration_enqueue_safe.2.2.2.2 fState 0 0 m0 mz rfl rfl rfl rfl
      (by norm_num [fState]) rfl (by norm_num [fState]) (by norm_num [fState])
    exact ⟨by norm_num [fState], by norm_num [fState], h.1, h.2⟩

/-- C7: failing input for the degenerate view direction.  With both queue
elements having eye equal to focus, the mid-progress tick emits a pose
whose eye equals its focus exactly; update applies no degeneracy guard,
so the zero direction vector (focus minus eye) is handed to the
camera-direction computation unchanged. -/
theorem degenerate_direction_unguarded :
    (update degState (1 / 2)).eye = (update degState (1 / 2)).focus ∧
    (update degState (1 / 2)).eye = ⟨1 / 2, 1 / 2, 1 / 2⟩ := by
  have hlt : (computeRelativeProgressInTime (pauseAnimationOnRequest degState)
      (1 / 2) degGoal.transition_duration).1 < 1 := by
    rw [pause_noop degState (by norm_num [degState]), relTime_val_time _ _ _ rfl]
    norm_num [degState, degGoal]
  have h := update_not_finished degState (1 / 2) degStart degGoal [] rfl rfl hlt
  have hp : progressOf degState (1 / 2) degGoal = 1 / 2 := by
    unfold progressOf
    rw [if_neg (not_le.mpr hlt)]
    rw [pause_noop degState (by norm_num [degState]), relTime_val_time _ _ _ rfl]
    norm_num [degState, degGoal, FULL, computeRelativeProgressInSpace]
  rw [h, hp]
  constructor
  · rfl
  · show lerp degStart.eye degGoal.eye (1 / 2) = ⟨1 / 2, 1 / 2, 1 / 2⟩
    simp only [lerp, degStart, degGoal]
    ext <;> norm_num

/-- C9: counterexample to the claim that a zero-or-negative pauseFor is a
no-op.  With a positive two-second pause pending, a pause request of
minus one second overwrites the pending pause, so the next tick no longer
shifts the transition start time: it ends at 0 instead of 2. -/
theorem pause_negative_request_not_noop :
    (update (pauseAnimationCallback pendState (-1)) 0).transition_start_time
      ≠ (update pendState 0).transition_start_time := by
  have hR : (update pendState 0).transition_start_time = 2 := by
    have hlt : (computeRelativeProgressInTime (pauseAnimationOnRequest pendState) 0
        m1.transition_duration).1 < 1 := by
      rw [pause_apply pendState (by norm_num [pendState]), relTime_val_time _ _ _ rfl]
      norm_num [pendState, m1]
    have h := update_not_finished pendState 0 m0 m1 [] rfl rfl hlt
    rw [h]
    show (computeRelativeProgressInTime (pauseAnimationOnRequest pendState) 0
        m1.transition_duration).2.transition_start_time = 2
    rw [relTime_start_time, pause_apply pendState (by norm_num [pendState])]
    norm_num [pendState]
  have hL : (update (pauseAnimationCallback pendState (-1)) 0).transition_start_time
      = 0 := by
    have hnp : (pauseAnimationCallback pendState (-1)).pause_animation_duration
        ≤ 0 := by
      norm_num [pendState, pauseAnimationCallback]
    have hlt : (computeRelativeProgressInTime
        (pauseAnimationOnRequest (pauseAnimationCallback pendState (-1))) 0
        m1.transition_duration).1 < 1 := by
      rw [pause_noop _ hnp, relTime_val_time _ _ _ rfl]
      norm_num [pendState, m1, pauseAnimationCallback]
    have h := update_not_finished (pauseAnimationCallback pendState (-1)) 0 m0 m1 []
      rfl rfl hlt
    rw [h]
    show (computeRelativeProgressInTime
        (pauseAnimationOnRequest (pauseAnimationCallback pendState (-1))) 0
        m1.transition_duration).2.transition_start_time = 0
    rw [relTime_start_time, pause_noop _ hnp]
    norm_num [pendState, pauseAnimationCallback]
  rw [hL, hR]
  norm_num

/-- C9 (amended): pauseFor stores the requested duration unconditionally,
overwriting any pending pause; a non-positive pending pause is never
applied (the application step leaves the state alone); a positive pending
pause is applied at the start of the next animating tick by shifting the
transition start time forward by exactly that duration and clearing the
pending pause, with every other field unchanged; and an animating tick
with at least two buffered elements behaves exactly as if the pending
pause had been applied first. -/
theorem pause_request_contract :
    (∀ (s : State) (d : ℝ),
      pauseAnimationCallback s d = { s with pause_animation_duration := d }) ∧
    (∀ s : State, s.pause_animation_duration ≤ 0 → pauseAnimationOnRequest s = s) ∧
    (∀ s : State, 0 < s.pause_animation_duration →
      pauseAnimationOnRequest s
        = { s with
            transition_start_time
              := s.transition_start_time + s.pause_animation_duration,
            pause_animation_duration := 0 }) ∧
    (∀ (s : State) (now : ℝ), s.animate = true → 2 ≤ s.queue.length →
      update s now = update (pauseAnimationOnRequest s) now) := by
  refine ⟨fun s d => rfl, fun s h => pause_noop s h, fun s h => pause_apply s h, ?_⟩
  intro s now hA hlen
  obtain ⟨a, b, t2, hq⟩ : ∃ a b t2, s.queue = a :: b :: t2 := by
    rcases hql : s.queue with _ | ⟨a, _ | ⟨b, t2⟩⟩
    · rw [hql] at hlen
      simp only [List.length_nil] at hlen
      omega
    · rw [hql] at hlen
      simp only [List.length_cons, List.length_nil] at hlen
      omega
    · exact ⟨a, b, t2, rfl⟩
  have hA2 : (pauseAnimationOnRequest s).animate = true := by
    rw [pauseOnRequest_animate]
    exact hA
  have hq2 : (pauseAnimationOnRequest s).queue = a :: b :: t2 := by
    rw [pauseOnRequest_queue]
    exact hq
  rw [update_eq_animating s now a b t2 hA hq,
      update_eq_animating (pauseAnimationOnRequest s) now a b t2 hA2 hq2]
  simp only [updateAnimating, pause_idem]

/-- Witness for C9 (amended) at concrete states. -/
theorem pause_request_contract_witness :
    pauseAnimationCallback pendState (-1)
      = { pendState with pause_animation_duration := -1 } ∧
    ((pauseAnimationCallback pendState (-1)).pause_animation_duration ≤ 0 ∧
      pauseAnimationOnRequest (pauseAnimationCallback pendState (-1))
        = pauseAnimationCallback pendState (-1)) ∧
    (0 < pendState.pause_animation_duration ∧
      pauseAnimationOnRequest pendState
        = { pendState with
            transition_start_time
              := pendState.transition_start_time + pendState.pause_animation_duration,
            pause_animation_duration := 0 }) ∧
    (animState.animate = true ∧ 2 ≤ animState.queue.length ∧
      update animState 0 = update (pauseAnimationOnRequest animState) 0) := by
  have h1 : (pauseAnimationCallback pendState (-1)).pause_animation_duration ≤ 0 := by
    norm_num [pendState, pauseAnimationCallback]
  have h2 : 0 < pendState.pause_animation_duration := by
    norm_num [pendState]
  have h3 : 2 ≤ animState.queue.length := by
    norm_num [animState]
  exact ⟨pause_request_contract.1 pendState (-1),
    ⟨h1, pause_request_contract.2.1 _ h1⟩,
    ⟨h2, pause_request_contract.2.2.1 pendState h2⟩,
    ⟨rfl, h3, pause_request_contract.2.2.2 animState 0 rfl h3⟩⟩


end AnimatedViewController
